import Mathlib

/-!
# Verification of the PIL3K ICO / IPTC plugins

Shallow embedding of `src/pil3k/IptcImagePlugin.py` and
`src/pil3k/IcoImagePlugin.py`.  Bytes are modelled as `List Nat`, Python
file objects over in-memory data as a `ByteStream` (data plus cursor), and
Python exceptions as the explicit error type `PyErr`.  Each definition
follows the source line by line; deviations forced by bugs in the source
(a mangled helper that is a Python syntax error) are documented at the
definition they affect.
-/

/-- The Python exceptions that the embedded code paths can raise.
`syntaxErr` is `SyntaxError`, `ioErr` is `IOError`, `indexErr` is
`IndexError`, `keyErr` is `KeyError`, `typeErr` is `TypeError`,
`decodeErr` stands for whatever exception the slow raster decode raises,
and `noFuel` is an artifact of the fuel encoding of `while` loops
(unreachable for the fuel values used, which exceed the number of
iterations any input permits). -/
inductive PyErr where
  | syntaxErr
  | ioErr
  | indexErr
  | keyErr
  | typeErr
  | decodeErr
  | noFuel
deriving DecidableEq

/-- An in-memory byte stream with a cursor: models `io.BytesIO(data)`
and the plugin's `self.fp`. -/
structure ByteStream where
  data : List Nat
  pos : Nat
deriving DecidableEq

/-- `fp.read(n)`: returns up to `n` bytes from the cursor (fewer when the
stream is shorter) and advances the cursor by the number actually read. -/
def readBytes (st : ByteStream) (n : Nat) : List Nat × ByteStream :=
  let s := (st.data.drop st.pos).take n
  (s, ⟨st.data, st.pos + s.length⟩)

namespace Iptc

/-- IPTC tag identifier: the `(s[1], s[2])` pair of `field`,
i.e. (record number, dataset number). -/
abbrev Tag := Nat × Nat

/-- A record payload as stored in `self.info`: `None` when the size was 0,
otherwise the payload bytes (`tagdata` in `_open`). -/
inductive TagData where
  | none
  | bytes (b : List Nat)
deriving DecidableEq

/-- A value of the `self.info` mapping: a single payload, or the list a
repeated tag is promoted to (lines 125–131 of `IptcImagePlugin.py`). -/
inductive IptcVal where
  | scalar (d : TagData)
  | multi (l : List TagData)
deriving DecidableEq

/-- The `self.info` dictionary: insertion-ordered association list from
tags to values, as a CPython `dict`. -/
abbrev Info := List (Tag × IptcVal)

/-- Dictionary lookup `info[tag]` / `tag in info.keys()`. -/
def lookupTag (t : Tag) : Info → Option IptcVal
  | [] => Option.none
  | (k, v) :: rest => if k = t then some v else lookupTag t rest

/-- Dictionary assignment `info[tag] = v` for a key already present:
replaces the value in place. -/
def updateTag (t : Tag) (v : IptcVal) : Info → Info
  | [] => []
  | (k, w) :: rest => if k = t then (k, v) :: rest else (k, w) :: updateTag t v rest

/-- Lines 125–131 of `IptcImagePlugin.py` (`_open`'s accumulation step):
an unseen tag stores its payload as a scalar; a tag seen once is promoted
to a two-element list; a list gets the payload appended. -/
def addTag (info : Info) (t : Tag) (d : TagData) : Info :=
  match lookupTag t info with
  | some (.multi l) => updateTag t (.multi (l ++ [d])) info
  | some (.scalar a) => updateTag t (.multi [a, d]) info
  | Option.none => info ++ [(t, .scalar d)]

/-- `i16(c)` from `IptcImagePlugin.py` line 39: `c[1] + (c[0]<<8)`
(big-endian).  Python evaluates `c[1]` first, so a list shorter than two
bytes raises `IndexError`. -/
def i16 (c : List Nat) : Except PyErr Nat :=
  match c with
  | c0 :: c1 :: _ => .ok (c1 + c0 * 2 ^ 8)
  | _ => .error .indexErr

/-- `i32(c)` from `IptcImagePlugin.py` line 42:
`c[3] + (c[2]<<8) + (c[1]<<16) + (c[0]<<24)` (big-endian); a list shorter
than four bytes raises `IndexError`. -/
def i32 (c : List Nat) : Except PyErr Nat :=
  match c with
  | c0 :: c1 :: c2 :: c3 :: _ => .ok (c3 + c2 * 2 ^ 8 + c1 * 2 ^ 16 + c0 * 2 ^ 24)
  | _ => .error .indexErr

/-- `PAD` from `IptcImagePlugin.py` line 34.  The source reads
`PAD = b'x00' * 4`: the backslash is missing, so this is the ASCII text
`x00` repeated four times (twelve bytes), not four zero bytes. -/
def PAD : List Nat := [120, 48, 48, 120, 48, 48, 120, 48, 48, 120, 48, 48]

/-- `i(c)` from `IptcImagePlugin.py` line 45.  The source line is
`return i32((PAD + bytes((c,))[-4:])` — its parentheses are unbalanced,
so the module is a Python syntax error and cannot be imported.  Under
either repair of the parenthesis, `bytes((c,))` is evaluated first, and
`bytes` applied to a tuple containing a `bytes` object (or `None`, or a
`list`) raises `TypeError`.  Every call site passes such a value, so the
embedding maps every argument to `TypeError`. -/
def i (_c : List Nat) : Except PyErr Nat := .error .typeErr

/-- `IptcImageFile.field` (lines 65–89): read a 5-byte record header.
A zero-length read returns `(None, 0)`.  Otherwise `tag = s[1], s[2]`
(raising `IndexError` on reads shorter than 3 bytes), the marker byte and
record number are validated (`SyntaxError`), and the size byte `s[3]`
(raising `IndexError` on a 3-byte read) selects the size regime:
`> 132` raises `IOError`; `== 128` means size 0; `129..132` reads the
extension bytes and applies the broken helper `i` (`TypeError`); `< 128`
applies `i16(s[3:])` (raising `IndexError` on a 4-byte read). -/
def field (st : ByteStream) : Except PyErr ((Option Tag × Nat) × ByteStream) :=
  let (s, st1) := readBytes st 5
  match s with
  | [] => .ok ((Option.none, 0), st1)
  | [_] => .error .indexErr
  | [_, _] => .error .indexErr
  | b0 :: b1 :: b2 :: srest =>
    if b0 ≠ 0x1C ∨ b1 < 1 ∨ 9 < b1 then .error .syntaxErr
    else
      match srest with
      | [] => .error .indexErr
      | b3 :: srest2 =>
        if 132 < b3 then .error .ioErr
        else if b3 = 128 then .ok ((some (b1, b2), 0), st1)
        else if 128 < b3 then
          let (ext, st2) := readBytes st1 (b3 - 128)
          match i ext with
          | .ok sz => .ok ((some (b1, b2), sz), st2)
          | .error e => .error e
        else
          match i16 (b3 :: srest2) with
          | .ok sz => .ok ((some (b1, b2), sz), st1)
          | .error e => .error e

/-- A Python value as it flows through `_open`'s derived-attribute code:
an `int` (from indexing into a `bytes`), a `bytes` payload (from indexing
into a promoted list), or `None`. -/
inductive PyVal where
  | int (n : Nat)
  | buf (b : List Nat)
  | pynone
deriving DecidableEq

/-- Python subscription `v[k]` for a value of the info mapping:
`None[k]` raises `TypeError`; `bytes[k]` yields an `int` or raises
`IndexError`; `list[k]` yields the stored payload or raises `IndexError`. -/
def pyIndex (v : IptcVal) (k : Nat) : Except PyErr PyVal :=
  match v with
  | .scalar .none => .error .typeErr
  | .scalar (.bytes b) =>
    match b.drop k with
    | [] => .error .indexErr
    | x :: _ => .ok (.int x)
  | .multi l =>
    match l.drop k with
    | [] => .error .indexErr
    | .none :: _ => .ok .pynone
    | .bytes b :: _ => .ok (.buf b)

/-- Python `v - 1` on a value taken from the info mapping: only defined
for `int`s, otherwise `TypeError`. -/
def pySub1 : PyVal → Except PyErr Int
  | .int n => .ok ((n : Int) - 1)
  | _ => .error .typeErr

/-- Python truthiness of a value from the info mapping: `0`, `b""` and
`None` are falsy. -/
def pyTruthy : PyVal → Bool
  | .int n => n != 0
  | .buf b => !b.isEmpty
  | .pynone => false

/-- Python `v == n` for an `int` literal `n`: values of other types
compare unequal without raising. -/
def pyEqNat (v : PyVal) (n : Nat) : Bool :=
  match v with
  | .int m => m == n
  | _ => false

/-- Python string subscription `s[k]` with an `int` index: negative
indices count from the end; out-of-range raises `IndexError`. -/
def strIndex (s : List Char) (k : Int) : Except PyErr Char :=
  let j : Int := if k < 0 then k + s.length else k
  if j < 0 then .error .indexErr
  else
    match s.get? j.toNat with
    | some c => .ok c
    | Option.none => .error .indexErr

namespace IptcImageFile

/-- Lines 135–147 of `IptcImagePlugin.py` (the `# mode` section of
`_open`): `layers = self.info[(3,60)][0]`, `component =
self.info[(3,60)][1]`, the optional channel id from `(3,65)`, then the
`layers`/`component` table selecting `"L"`, `"RGB"[id]` or `"CMYK"[id]`.
Returns the mode character when one of the three arms matches, `none`
when no arm matches (the source leaves `self.mode` unset). -/
def modeSection (info : Info) : Except PyErr (Option Char) := do
  let v ← match lookupTag (3, 60) info with
    | some v => pure v
    | Option.none => throw .keyErr
  let layers ← pyIndex v 0
  let component ← pyIndex v 1
  let id : Int ← match lookupTag (3, 65) info with
    | some w => do
      let x ← pyIndex w 0
      pySub1 x
    | Option.none => pure 0
  if pyEqNat layers 1 && !pyTruthy component then
    pure (some 'L')
  else if pyEqNat layers 3 && pyTruthy component then do
    let c ← strIndex ['R', 'G', 'B'] id
    pure (some c)
  else if pyEqNat layers 4 && pyTruthy component then do
    let c ← strIndex ['C', 'M', 'Y', 'K'] id
    pure (some c)
  else
    pure Option.none

/-- `IptcImageFile.getint` (line 62): `i(self.info[key])`.  A missing key
raises `KeyError`; otherwise the broken helper `i` raises `TypeError`
(see `Iptc.i`): `bytes((c,))` fails for each value shape the mapping can
hold. -/
def getint (info : Info) (key : Tag) : Except PyErr Nat :=
  match lookupTag key info with
  | Option.none => .error .keyErr
  | some (.scalar (.bytes b)) => i b
  | some _ => .error .typeErr

/-- Line 150 of `IptcImagePlugin.py` (the `# size` section of `_open`):
`self.size = self.getint((3,20)), self.getint((3,30))`, left to right. -/
def sizeSection (info : Info) : Except PyErr (Nat × Nat) := do
  let w ← getint info (3, 20)
  let h ← getint info (3, 30)
  pure (w, h)

end IptcImageFile

/-- The `COMPRESSION` table (lines 29–32): `{1: "raw", 5: "jpeg"}`. -/
def COMPRESSION (n : Nat) : Option String :=
  if n = 1 then some "raw" else if n = 5 then some "jpeg" else Option.none

namespace IptcImageFile

/-- Lines 152–156 of `IptcImagePlugin.py` (the `# compression` section):
`COMPRESSION[self.getint((3,120))]` inside `try/except KeyError`, which
converts both a missing `(3,120)` tag and an unknown table key into
`IOError("Unknown IPTC image compression")`. -/
def compressionSection (info : Info) : Except PyErr String :=
  match getint info (3, 120) with
  | .error .keyErr => .error .ioErr
  | .error e => .error e
  | .ok n =>
    match COMPRESSION n with
    | some s => .ok s
    | Option.none => .error .ioErr

/-- `IptcImageFile._is_raw` (lines 91–111): the body after the
`DISABLED` comment is dead code — the function unconditionally
`return 0` before it. -/
def is_raw (_offset : Nat) (_size : Nat × Nat) : Nat := 0

end IptcImageFile

/-- The state `_open` leaves on the image object: the info mapping, the
mode (when set), the size, the compression string and the tile list. -/
structure OpenOut where
  info : Info
  mode : Option Char
  size : Nat × Nat
  compression : String
  tile : List (String × (String × Nat) × (Nat × Nat × Nat × Nat))
deriving DecidableEq

namespace IptcImageFile

/-- The descriptive-field loop of `_open` (lines 116–131): repeatedly
`tag, size = self.field()`, stop on no tag or on the image-data marker
`(8,10)` (returning the last tag, its size and the offset of its header),
else read the payload and accumulate it with `addTag`.  Errors carry the
info mapping built so far (`self.info` is mutated in place).  `fuel`
bounds the iteration count; every caller passes more fuel than any input
can consume (each non-final iteration advances the cursor by 5 or more). -/
def openLoop : Nat → ByteStream → Info →
    Except (PyErr × Info) ((Option Tag × Nat × Nat) × ByteStream × Info)
  | 0, _, info => .error (.noFuel, info)
  | fuel + 1, st, info =>
    let offset := st.pos
    match field st with
    | .error e => .error (e, info)
    | .ok ((Option.none, sz), st1) => .ok ((Option.none, sz, offset), st1, info)
    | .ok ((some t, sz), st1) =>
      if t = (8, 10) then .ok ((some t, sz, offset), st1, info)
      else
        let (tagdata, st2) :=
          if 0 < sz then
            let (b, st2) := readBytes st1 sz
            (TagData.bytes b, st2)
          else (TagData.none, st1)
        openLoop fuel st2 (addTag info t tagdata)

/-- `IptcImageFile._open` (lines 113–165) over an in-memory stream: the
descriptive-field loop, then the mode, size, compression and tile
sections.  Errors carry the info mapping accumulated so far.  In the tile
section the raw fast path is guarded by `_is_raw`, which always returns
0, so the `"iptc"` tile is the only reachable one; the raw tile
construction is therefore dead code and elided from the (provably
untaken) branch. -/
def _open (data : List Nat) : Except (PyErr × Info) OpenOut :=
  match openLoop (data.length + 1) ⟨data, 0⟩ [] with
  | .error e => .error e
  | .ok ((tag, sz, offset), _st, info) =>
    match modeSection info with
    | .error e => .error (e, info)
    | .ok mode =>
      match sizeSection info with
      | .error e => .error (e, info)
      | .ok size =>
        match compressionSection info with
        | .error e => .error (e, info)
        | .ok compression =>
          let _ := sz
          let tile :=
            if tag = some (8, 10) then
              if compression == "raw" && (is_raw offset size != 0) then []
              else [("iptc", (compression, offset), (0, 0, size.1, size.2))]
            else []
          .ok ⟨info, mode, size, compression, tile⟩

end IptcImageFile

/-- The tail of `getiptcinfo` (lines 280–295): run `_open` on a
`BytesIO` over the extracted bytes inside
`try: ... except (IndexError, KeyError): pass`, then return `im.info` —
the (possibly partial) mapping.  Exceptions of any other class escape to
the caller. -/
def getiptcinfoParse (data : List Nat) : Except PyErr Info :=
  match IptcImageFile._open data with
  | .ok out => .ok out.info
  | .error (.indexErr, info) => .ok info
  | .error (.keyErr, info) => .ok info
  | .error (e, _) => .error e

/-- The PPM header written at line 184 of `IptcImagePlugin.py` when the
encoding is `"raw"`: `"P5\n{w} {h}\n255\n"`, encoded latin-1 (each
character one byte). -/
def ppmHeader (w h : Nat) : List Nat :=
  ("P5\n" ++ Nat.repr w ++ " " ++ Nat.repr h ++ "\n255\n").toList.map Char.toNat

/-- The inner copy loop of `IptcImageFile.load` (lines 190–195): while
`size > 0`, read `min(size, 8192)` bytes; an empty read breaks, otherwise
the chunk is appended to the staged buffer and `size` decreases by the
number of bytes read. -/
def copyChunksAux : Nat → ByteStream → Nat → List Nat → ByteStream × List Nat
  | 0, st, _, out => (st, out)
  | fuel + 1, st, size, out =>
    if size = 0 then (st, out)
    else
      let (s, st1) := readBytes st (min size 8192)
      if s.length = 0 then (st1, out)
      else copyChunksAux fuel st1 (size - s.length) (out ++ s)

/-- `copyChunksAux` with fuel `size`: each non-final iteration reads at
least one byte and decreases `size` by that amount, so fuel `size` always
suffices and the fuel-0 case coincides with the `size = 0` exit. -/
def copyChunks (st : ByteStream) (size : Nat) (out : List Nat) :
    ByteStream × List Nat :=
  copyChunksAux size st size out

/-- The outer copy loop of `IptcImageFile.load` (lines 186–195):
`type, size = self.field()`; any tag other than the image-data marker
`(8,10)` (including no tag) breaks; a marker record's payload is copied
in chunks.  Errors raised by `field` propagate.  `fuel` as in
`openLoop`. -/
def loadLoop : Nat → ByteStream → List Nat → Except PyErr (ByteStream × List Nat)
  | 0, _, _ => .error .noFuel
  | fuel + 1, st, out =>
    match field st with
    | .error e => .error e
    | .ok ((t, size), st1) =>
      if t ≠ some (8, 10) then .ok (st1, out)
      else
        let (st2, out2) := copyChunks st1 size out
        loadLoop fuel st2 out2

/-- The `"iptc"`-tile branch of `IptcImageFile.load` (lines 172–211),
the pixel-extraction step.  (The dispatch guard at line 169 compares the
tile type string `"iptc"` set by `_open` against the bytes literal
`b"iptc"`, which in Python 3 is always unequal, so as ported this branch
is unreachable; it is embedded as written since the claims are about its
behaviour.)  A temporary file is created (`exists := true`), the PPM
header is written when the encoding is `"raw"`, the record payloads are
copied, and only the decode step — fast opener, bare-`except` fallback to
the slow opener — sits inside `try/finally os.unlink`.  The result's
`Bool` reports whether the staged file still exists when `load` returns
or raises: `field` errors during the copy phase escape *before* the
`try/finally`, leaving the file behind. -/
def loadIptcTile (data : List Nat) (offset : Nat) (encoding : String)
    (w h : Nat) (fastOk slowOk : Bool) : Except (PyErr × Bool) Bool :=
  let header := if encoding = "raw" then ppmHeader w h else []
  match loadLoop (data.length + 1) ⟨data, offset⟩ header with
  | .error e => .error (e, true)
  | .ok _ =>
    if fastOk then .ok false
    else if slowOk then .ok false
    else .error (.decodeErr, false)

/-- Parity of a natural number (`offset & 1` in the source), defined by
structural recursion so that it reduces definitionally on literals
(`Nat.mod` does not). -/
def oddBit : Nat → Bool
  | 0 => false
  | 1 => true
  | n + 2 => oddBit n

/-- `if offset & 1: offset = offset + 1` — advance an odd offset to the
next even one (lines 254–255 and 264–265 of `IptcImagePlugin.py`). -/
def padEven (n : Nat) : Nat := if oddBit n then n + 1 else n

/-- The single byte `c[o]` (the name-length read at line 251); reads past
the end of the segment are modelled as 0 — the walk of a well-formed
resource list never reads out of range, and no claim concerns the
`IndexError` such a read would raise. -/
def byteAt (c : List Nat) (o : Nat) : Nat :=
  match c.drop o with
  | b :: _ => b
  | [] => 0

/-- Modelled from the spec: `JpegImagePlugin.i16` — the module
`JpegImagePlugin.py` is not under `src/`; §4.5/§6 of the spec state the
resource id is a 2-byte big-endian integer at the given offset (reads
past the end modelled as 0, as in `byteAt`). -/
def i16BE (c : List Nat) (o : Nat) : Nat :=
  match c.drop o with
  | b0 :: b1 :: _ => b0 * 2 ^ 8 + b1
  | [b0] => b0 * 2 ^ 8
  | [] => 0

/-- Modelled from the spec: `JpegImagePlugin.i32` — the module
`JpegImagePlugin.py` is not under `src/`; §4.5/§6 of the spec state the
payload size is a 4-byte big-endian integer at the given offset (reads
past the end modelled as 0, as in `byteAt`). -/
def i32BE (c : List Nat) (o : Nat) : Nat :=
  match c.drop o with
  | b0 :: b1 :: b2 :: b3 :: _ => b0 * 2 ^ 24 + b1 * 2 ^ 16 + b2 * 2 ^ 8 + b3
  | _ => 0

/-- The bytes of `b"8BIM"`. -/
def marker8BIM : List Nat := [56, 66, 73, 77]

/-- The bytes of `b"Photoshop 3.0\x00"` (the 14-byte APP13 signature). -/
def photoshopSig : List Nat :=
  [80, 104, 111, 116, 111, 115, 104, 111, 112, 32, 51, 46, 48, 0]

/-- The 8BIM resource-block walk of `getiptcinfo` (lines 244–265):
while the four bytes at `offset` are `b"8BIM"`, read the 2-byte
big-endian resource code at `offset + 4`, read the 1-byte name length at
`offset + 6`, skip the length-prefixed name padding the offset to even
(`offset + 4 + 2 + 1 + nameLen`, then `padEven`), read the 4-byte
big-endian payload size; code `0x0404` returns its payload
(`size` bytes after the size field), any other block is skipped, with
the payload padded to an even offset.  A non-`8BIM` position ends the
walk with no data.  `fuel` bounds the iteration count (each iteration
advances `offset` by at least 11). -/
def psWalk : Nat → List Nat → Nat → Option (List Nat)
  | 0, _, _ => Option.none
  | fuel + 1, app, offset =>
    if (app.drop offset).take 4 = marker8BIM then
      let code := i16BE app (offset + 4)
      let nameLen := byteAt app (offset + 4 + 2)
      let o3 := padEven (offset + 4 + 2 + 1 + nameLen)
      let size := i32BE app o3
      if code = 0x0404 then some ((app.drop (o3 + 4)).take size)
      else psWalk fuel app (padEven (o3 + 4 + size))
    else Option.none

/-- The JPEG arm of `getiptcinfo` (lines 240–265): require the APP13
segment to begin with `b"Photoshop 3.0\x00"`, strip it and walk the 8BIM
resource blocks; `none` when the signature is absent or no `0x0404`
block is found. -/
def getiptcinfoJpeg (app13 : List Nat) : Option (List Nat) :=
  if app13.take 14 = photoshopSig then
    psWalk (app13.length + 1) (app13.drop 14) 0
  else Option.none

end Iptc

namespace Ico

/-- `i16(c)` from `IcoImagePlugin.py` line 29: `c[0] + (c[1]<<8)`
(little-endian); a list shorter than two bytes raises `IndexError`
(`c[0]` is evaluated first). -/
def i16 (c : List Nat) : Except PyErr Nat :=
  match c with
  | c0 :: c1 :: _ => .ok (c0 + c1 * 2 ^ 8)
  | _ => .error .indexErr

/-- `i32(c)` from `IcoImagePlugin.py` line 32:
`c[0] + (c[1]<<8) + (c[2]<<16) + (c[3]<<24)` (little-endian); a list
shorter than four bytes raises `IndexError`. -/
def i32 (c : List Nat) : Except PyErr Nat :=
  match c with
  | c0 :: c1 :: c2 :: c3 :: _ => .ok (c0 + c1 * 2 ^ 8 + c2 * 2 ^ 16 + c3 * 2 ^ 24)
  | _ => .error .indexErr

/-- `_accept(prefix)` (line 36): `prefix[:4] == b'\x00\x00\x01\x00'`. -/
def accept (s : List Nat) : Bool :=
  s.take 4 == [0, 0, 1, 0]

/-- The directory-entry selection loop of `IcoImageFile._open`
(lines 55–61): `m = b""`; for each of `count` 16-byte reads `s`, take `s`
if `m` is empty, else replace `m` by `s` only when `s[0] > m[0] and
s[1] > m[1]` (Python short-circuit evaluation order: `s[0]`, `m[0]`,
then — only when the first comparison holds — `s[1]`, `m[1]`; each
subscript can raise `IndexError` on a short read). -/
def icoLoop : Nat → ByteStream → List Nat → Except PyErr (List Nat × ByteStream)
  | 0, st, m => .ok (m, st)
  | n + 1, st, m =>
    let (s, st1) := readBytes st 16
    if m = [] then icoLoop n st1 s
    else
      match s, m with
      | [], _ => .error .indexErr
      | _ :: _, [] => .error .indexErr
      | s0 :: srest, m0 :: mrest =>
        if m0 < s0 then
          match srest, mrest with
          | [], _ => .error .indexErr
          | _ :: _, [] => .error .indexErr
          | s1 :: _, m1 :: _ =>
            if m1 < s1 then icoLoop n st1 s else icoLoop n st1 m
        else icoLoop n st1 m

/-- What `IcoImageFile._open` leaves on the image object: the selected
directory entry `m`, the data offset handed to `self._bitmap`, and the
patched size and tile.  `α` is the (opaque) type of the tile's trailing
decoder arguments. -/
structure IcoResult (α : Type) where
  selected : List Nat
  offset : Nat
  size : Nat × Nat
  tile : String × (Nat × Nat × Nat × Nat) × Nat × α
deriving DecidableEq

/-- `IcoImageFile._open` (lines 47–79): check the 6-byte header magic
(`SyntaxError("not an ICO file")` on mismatch), read the little-endian
entry count from `s[4:]`, run the selection loop, compute the data
offset `i32(m[12:])`, delegate to the bitmap decoder, then patch up:
`self.size = self.size[0], self.size[1]//2` and
`self.tile[0] = d, (0,0)+self.size, o, a`.  The external
`BmpImagePlugin._bitmap` delegate is abstracted as the oracle `bitmap`,
mapping the data offset to the intrinsic size and tile it reports. -/
def IcoImageFile._open {α : Type} (data : List Nat)
    (bitmap : Nat → (Nat × Nat) × (String × (Nat × Nat × Nat × Nat) × Nat × α)) :
    Except PyErr (IcoResult α) :=
  let (s, st) := readBytes ⟨data, 0⟩ 6
  if ¬ accept s then .error .syntaxErr
  else
    match i16 (s.drop 4) with
    | .error e => .error e
    | .ok count =>
      match icoLoop count st [] with
      | .error e => .error e
      | .ok (m, _st2) =>
        match i32 (m.drop 12) with
        | .error e => .error e
        | .ok off =>
          .ok ⟨m, off, ((bitmap off).1.1, (bitmap off).1.2 / 2),
            ((bitmap off).2.1, (0, 0, (bitmap off).1.1, (bitmap off).1.2 / 2),
              (bitmap off).2.2.2.1, (bitmap off).2.2.2.2)⟩

end Ico

namespace Iptc

/-- The list of payloads a stored info value represents: nothing, a
single scalar, or the payloads of a promoted list. -/
def seenList : Option IptcVal → List TagData
  | Option.none => []
  | some (.scalar a) => [a]
  | some (.multi l) => l

/-- Specification-side shape of an info value (§4.2 step 5 of the spec):
an unseen tag is absent, one occurrence is stored as a scalar, two or
more as the ordered list of payloads. -/
def accumSpec : List TagData → Option IptcVal
  | [] => Option.none
  | [a] => some (.scalar a)
  | l => some (.multi l)

/-- The accumulation performed by `_open`'s descriptive-field loop,
abstracted over an already-parsed record sequence: fold `addTag` from a
starting mapping. -/
def processFrom (info : Info) (rs : List (Tag × TagData)) : Info :=
  rs.foldl (fun acc r => addTag acc r.1 r.2) info

/-- `processFrom` from the empty mapping, as `_open` starts. -/
def processRecords (rs : List (Tag × TagData)) : Info :=
  processFrom [] rs

/-- The payloads of the records carrying tag `T`, in arrival order. -/
def occurrences (T : Tag) (rs : List (Tag × TagData)) : List TagData :=
  (rs.filter fun r => decide (r.1 = T)).map Prod.snd

/-- Specification-side `i` (§4.3 of the spec and claim C9): the
big-endian 4-byte integer value of a payload, shorter payloads
zero-extended on the left — i.e. `i32((b'\x00'*4 + c)[-4:])`, which is
what the mangled source line 45 was evidently meant to compute. -/
def iSpec (c : List Nat) : Nat :=
  let p := [0, 0, 0, 0] ++ c
  (p.drop (p.length - 4)).foldl (fun a b => a * 2 ^ 8 + b) 0

end Iptc

/-- A concrete bitmap-decoder oracle reporting intrinsic size (64, 128)
and a fixed tile, used to instantiate theorems about `IcoImageFile._open`
at a closed input. -/
def Ico.exBitmap : Nat → (Nat × Nat) × (String × (Nat × Nat × Nat × Nat) × Nat × String) :=
  fun _ => ((64, 128), ("bmp", (0, 0, 64, 128), 22, "raw"))

example : Iptc.iSpec [0, 0, 2, 0] = 512 := rfl

example : Iptc.iSpec [2, 0] = 512 := rfl

example : Iptc.getiptcinfoParse [28, 3, 60, 0, 2, 1, 0] =
    .ok [((3, 60), .scalar (.bytes [1, 0]))] := rfl

example : Iptc.getiptcinfoParse
    [28, 3, 60, 0, 2, 1, 0, 28, 3, 20, 0, 4, 0, 0, 0, 5] =
    .error .typeErr := rfl

example : Iptc.getiptcinfoJpeg
    (Iptc.photoshopSig ++
      ([56, 66, 73, 77] ++ [4, 2] ++ [1, 65] ++ [0, 0, 0, 3] ++ [7, 8, 9] ++ [0] ++
        [56, 66, 73, 77] ++ [4, 4] ++ [1, 66] ++ [0, 0, 0, 5] ++ [1, 2, 3, 4, 5])) =
    some [1, 2, 3, 4, 5] := rfl

example : Ico.IcoImageFile._open
    ([0, 0, 1, 0, 1, 0] ++ [16, 16, 0, 0, 1, 0, 8, 0, 0, 1, 0, 0, 22, 0, 0, 0])
    (fun _ => ((64, 128), ("bmp", (0, 0, 64, 128), 22, "raw"))) =
    .ok ⟨[16, 16, 0, 0, 1, 0, 8, 0, 0, 1, 0, 0, 22, 0, 0, 0], 22,
      (64, 64), ("bmp", (0, 0, 64, 64), 22, "raw")⟩ := rfl

/-- C10: a container whose 6-byte header is valid (reserved 0,
little-endian type 1) but whose entry count is 0 — for any trailing bytes
and any bitmap-decoder oracle — does not raise the "not an ICO file"
`SyntaxError`: the selection loop leaves `m` empty and `i32(m[12:])`
raises `IndexError` before the bitmap decoder is consulted (the result
does not depend on `bitmap` at all). -/
theorem C10_zero_entries : ∀ (rest : List Nat) {α : Type}
    (bitmap : Nat → (Nat × Nat) × (String × (Nat × Nat × Nat × Nat) × Nat × α)),
    Ico.IcoImageFile._open ([0, 0, 1, 0, 0, 0] ++ rest) bitmap = .error .indexErr :=
  fun _ _ _ => rfl

/-- C2 fails as stated: with exactly one byte remaining (here `0x1C`),
the record-header read yields 1 byte and `field` raises `IndexError` at
`tag = s[1], s[2]` instead of signalling normal end of records. -/
theorem C2_counterexample : Iptc.field ⟨[0x1C], 0⟩ = .error .indexErr := rfl

/-- C2 amended: `field` signals normal end of records (no tag) exactly
when the 5-byte read returns zero bytes, i.e. when the cursor is at or
past the end of the stream; a read of 1–4 bytes never signals end of
records (it raises, or — for some 4-byte tails — returns a tag). -/
theorem C2_amended : ∀ st : ByteStream,
    (∃ st', Iptc.field st = .ok ((Option.none, 0), st')) ↔
      st.data.length ≤ st.pos := by
  intro st
  constructor
  · rintro ⟨st', h⟩
    rcases hs : (st.data.drop st.pos).take 5 with
      _ | ⟨b0, _ | ⟨b1, _ | ⟨b2, _ | ⟨b3, _ | ⟨b4, tail⟩⟩⟩⟩⟩
    · rcases List.take_eq_nil_iff.mp hs with h5 | hnil
      · omega
      · exact List.drop_eq_nil_iff.mp hnil
    · simp [Iptc.field, readBytes, hs] at h
    · simp [Iptc.field, readBytes, hs] at h
    · simp [Iptc.field, readBytes, hs] at h
      split_ifs at h
    · simp [Iptc.field, readBytes, hs] at h
      split_ifs at h <;> simp_all [Iptc.i, Iptc.i16]
    · simp [Iptc.field, readBytes, hs] at h
      split_ifs at h <;> simp_all [Iptc.i, Iptc.i16]
  · intro h
    have hd : st.data.drop st.pos = [] := List.drop_eq_nil_iff.mpr h
    exact ⟨⟨st.data, st.pos⟩, by simp [Iptc.field, readBytes, hd]⟩

/-- C1 fails as stated: extracted bytes whose first record has a bad
marker byte (`0x00` instead of `0x1C`) make the cross-container parse
raise `SyntaxError` to the caller instead of degrading to the partial
mapping. -/
theorem C1_counterexample :
    Iptc.getiptcinfoParse [0, 3, 20, 0, 0] = .error .syntaxErr := rfl

/-- C1 amended: the cross-container parse swallows exactly `IndexError`
and `KeyError` (returning the possibly-partial mapping built so far);
every other failure propagates — in particular a first record with a bad
marker byte or an out-of-range record number raises `SyntaxError`, and an
illegal size byte (> 132) raises `IOError`, for arbitrary remaining
bytes. -/
theorem C1_amended :
    (∀ data e info, Iptc.IptcImageFile._open data = .error (e, info) →
      e = .indexErr ∨ e = .keyErr → Iptc.getiptcinfoParse data = .ok info) ∧
    (∀ b0 b1 b2 rest, b0 ≠ 0x1C →
      Iptc.getiptcinfoParse (b0 :: b1 :: b2 :: rest) = .error .syntaxErr) ∧
    (∀ b1 b2 rest, b1 < 1 ∨ 9 < b1 →
      Iptc.getiptcinfoParse (0x1C :: b1 :: b2 :: rest) = .error .syntaxErr) ∧
    (∀ b1 b2 b3 rest, 1 ≤ b1 → b1 ≤ 9 → 132 < b3 →
      Iptc.getiptcinfoParse (0x1C :: b1 :: b2 :: b3 :: rest) = .error .ioErr) := by
  refine ⟨?_, ?_, ?_, ?_⟩
  · intro data e info h he
    rcases he with he | he <;> subst he <;>
      simp [Iptc.getiptcinfoParse, h]
  · intro b0 b1 b2 rest h
    simp [Iptc.getiptcinfoParse, Iptc.IptcImageFile._open, Iptc.IptcImageFile.openLoop,
      Iptc.field, readBytes, h]
  · intro b1 b2 rest h
    have hcond : (0x1C ≠ 0x1C ∨ b1 < 1 ∨ 9 < b1) := Or.inr h
    simp only [Iptc.getiptcinfoParse, Iptc.IptcImageFile._open, Iptc.IptcImageFile.openLoop,
      Iptc.field, readBytes, List.drop_zero, List.take_succ_cons,
      if_pos hcond]
  · intro b1 b2 b3 rest h1 h9 h132
    have hcond : ¬ (0x1C ≠ 0x1C ∨ b1 < 1 ∨ 9 < b1) := by
      push_neg
      exact ⟨rfl, h1, h9⟩
    simp only [Iptc.getiptcinfoParse, Iptc.IptcImageFile._open, Iptc.IptcImageFile.openLoop,
      Iptc.field, readBytes, List.drop_zero, List.take_succ_cons,
      if_neg hcond, if_pos h132]

/-- Witness for C1's amended theorem at concrete inputs: a 3-byte stream
whose header read is short raises `IndexError`, which is swallowed
(empty mapping returned); a bad marker byte, record number 0 and size
byte 200 propagate `SyntaxError`, `SyntaxError` and `IOError`. -/
theorem C1_amended_witness :
    Iptc.getiptcinfoParse [28, 3, 20] = .ok [] ∧
    Iptc.getiptcinfoParse [5, 3, 20, 0, 0] = .error .syntaxErr ∧
    Iptc.getiptcinfoParse [28, 0, 20, 0, 0] = .error .syntaxErr ∧
    Iptc.getiptcinfoParse [28, 3, 20, 200, 9] = .error .ioErr :=
  ⟨C1_amended.1 [28, 3, 20] .indexErr [] rfl (Or.inl rfl),
   C1_amended.2.1 5 3 20 [0, 0] (by decide),
   C1_amended.2.2.1 0 20 [0, 0] (Or.inl (by decide)),
   C1_amended.2.2.2 3 20 200 [9] (by decide) (by decide) (by decide)⟩

/-- C6 fails as stated: when `field` raises during the copy phase (here
the first record header has marker byte 0, raising `SyntaxError`), the
error escapes `load` before the `try/finally` around the decode step, so
the staged temporary file is *not* deleted (the `true` flag). -/
theorem C6_counterexample :
    Iptc.loadIptcTile [0, 1, 1, 0, 0] 0 "raw" 3 2 true true =
      .error (.syntaxErr, true) := rfl

/-- C6 amended: cleanup is guaranteed only around the decode step.  If
the header/copy phase raises, the error propagates with the staged file
still in place; if the copy phase succeeds, the staged file is deleted
whether the decode succeeds (fast or slow opener) or fails. -/
theorem C6_amended :
    (∀ data offset enc w h fast slow e,
      Iptc.loadLoop (data.length + 1) ⟨data, offset⟩
          (if enc = "raw" then Iptc.ppmHeader w h else []) = .error e →
      Iptc.loadIptcTile data offset enc w h fast slow = .error (e, true)) ∧
    (∀ data offset enc w h fast slow p,
      Iptc.loadLoop (data.length + 1) ⟨data, offset⟩
          (if enc = "raw" then Iptc.ppmHeader w h else []) = .ok p →
      Iptc.loadIptcTile data offset enc w h fast slow =
        if fast || slow then .ok false else .error (.decodeErr, false)) := by
  constructor
  · intro data offset enc w h fast slow e hloop
    simp [Iptc.loadIptcTile, hloop]
  · intro data offset enc w h fast slow p hloop
    cases fast <;> cases slow <;> simp [Iptc.loadIptcTile, hloop]

/-- Witness for C6's amended theorem at concrete inputs: a stream whose
first header byte is not the marker propagates `SyntaxError` with the
file still staged; a stream whose records are exhausted cleanly reaches
the decode step, and with both openers failing the decode error
propagates with the file deleted. -/
theorem C6_amended_witness :
    Iptc.loadIptcTile [0, 1, 1, 0, 0] 0 "x" 0 0 true true =
      .error (.syntaxErr, true) ∧
    Iptc.loadIptcTile [28, 8, 10, 128, 0] 0 "x" 0 0 false false =
      .error (.decodeErr, false) :=
  ⟨C6_amended.1 [0, 1, 1, 0, 0] 0 "x" 0 0 true true .syntaxErr rfl,
   C6_amended.2 [28, 8, 10, 128, 0] 0 "x" 0 0 false false
     (⟨[28, 8, 10, 128, 0], 5⟩, []) rfl⟩

/-- C3: evaluation of the embedded record-header parser at the three
size regimes.  A size byte below 128 takes the big-endian 16-bit value of
header bytes 3–4 (here `0x00 0x0A` = 10) and a size byte of exactly 128
yields size 0, as the claim states; but an extended-length header (size
byte 130 followed by the 2-byte big-endian extension `0x01 0x2C` = 300)
raises `TypeError` instead of yielding 300, because the helper `i`
(line 45) is mangled in the source — the claim's third regime does not
hold on the code. -/
theorem C3_code_eval :
    Iptc.field ⟨[0x1C, 3, 0, 0, 10, 7, 7], 0⟩ =
      .ok ((some (3, 0), 10), ⟨[0x1C, 3, 0, 0, 10, 7, 7], 5⟩) ∧
    Iptc.field ⟨[0x1C, 3, 0, 128, 99], 0⟩ =
      .ok ((some (3, 0), 0), ⟨[0x1C, 3, 0, 128, 99], 5⟩) ∧
    Iptc.field ⟨[0x1C, 3, 0, 130, 1, 44], 0⟩ = .error .typeErr :=
  ⟨rfl, rfl, rfl⟩

/-- C9: evaluation of `getint` at a mapping holding the 4-byte payload
`0x00 0x00 0x02 0x00` under record 3 dataset 20.  The claim (and the
specification-side `iSpec`) says the derived width is 512; the code's
`getint` instead raises `TypeError` through the mangled helper `i`.  The
last two conjuncts record what the intended helper computes, including
left zero-extension of short payloads. -/
theorem C9_code_eval :
    Iptc.IptcImageFile.getint [((3, 20), .scalar (.bytes [0, 0, 2, 0]))] (3, 20) =
      .error .typeErr ∧
    Iptc.iSpec [0, 0, 2, 0] = 512 ∧ Iptc.iSpec [2, 0] = 512 :=
  ⟨rfl, rfl, rfl⟩

/-- One unfolding of the selection loop when the selection is still
empty: the entry read becomes the selection. -/
theorem Ico.icoLoop_step_nil (n : Nat) (data : List Nat) (pos : Nat) (e : List Nat)
    (he : (data.drop pos).take 16 = e) :
    Ico.icoLoop (n + 1) ⟨data, pos⟩ [] = Ico.icoLoop n ⟨data, pos + e.length⟩ e := by
  simp [Ico.icoLoop, readBytes, he]

/-- One unfolding of the selection loop when the entry read beats the
selection on both the width byte and the height byte: it replaces the
selection. -/
theorem Ico.icoLoop_step_take (n : Nat) (data : List Nat) (pos m0 m1 : Nat)
    (mr : List Nat) (s0 s1 : Nat) (sr : List Nat)
    (he : (data.drop pos).take 16 = s0 :: s1 :: sr)
    (h0 : m0 < s0) (h1 : m1 < s1) :
    Ico.icoLoop (n + 1) ⟨data, pos⟩ (m0 :: m1 :: mr) =
      Ico.icoLoop n ⟨data, pos + (s0 :: s1 :: sr).length⟩ (s0 :: s1 :: sr) := by
  simp [Ico.icoLoop, readBytes, he, h0, h1]

/-- One unfolding of the selection loop when the entry read fails the
strict test on either byte: the selection is kept. -/
theorem Ico.icoLoop_step_keep (n : Nat) (data : List Nat) (pos m0 m1 : Nat)
    (mr : List Nat) (s0 s1 : Nat) (sr : List Nat)
    (he : (data.drop pos).take 16 = s0 :: s1 :: sr)
    (h : ¬ m0 < s0 ∨ ¬ m1 < s1) :
    Ico.icoLoop (n + 1) ⟨data, pos⟩ (m0 :: m1 :: mr) =
      Ico.icoLoop n ⟨data, pos + (s0 :: s1 :: sr).length⟩ (m0 :: m1 :: mr) := by
  rcases h with h | h
  · simp [Ico.icoLoop, readBytes, he, h]
  · by_cases h0 : m0 < s0 <;> simp [Ico.icoLoop, readBytes, he, h0, h]

/-- C4: the directory-entry selection.  The selection starts at the first
entry and replaces it only when both the width byte and the height byte
strictly increase.  For entries (16,16), (32,32), (48,32) — with the
other 14 bytes of each entry arbitrary — the selected entry is the
(32,32) one, since (48,32) fails the strict height test; for entries
(16,16), (32,24), (48,32) the selected entry is the (48,32) one. -/
theorem C4_selection : ∀ t1 t2 t3 : List Nat,
    t1.length = 14 → t2.length = 14 → t3.length = 14 →
    (Ico.icoLoop 3
        ⟨(16 :: 16 :: t1) ++ ((32 :: 32 :: t2) ++ (48 :: 32 :: t3)), 0⟩ [] =
      .ok (32 :: 32 :: t2,
        ⟨(16 :: 16 :: t1) ++ ((32 :: 32 :: t2) ++ (48 :: 32 :: t3)), 48⟩)) ∧
    (Ico.icoLoop 3
        ⟨(16 :: 16 :: t1) ++ ((32 :: 24 :: t2) ++ (48 :: 32 :: t3)), 0⟩ [] =
      .ok (48 :: 32 :: t3,
        ⟨(16 :: 16 :: t1) ++ ((32 :: 24 :: t2) ++ (48 :: 32 :: t3)), 48⟩)) := by
  intro t1 t2 t3 h1 h2 h3
  have he1 : (16 :: 16 :: t1).length = 16 := by simp [h1]
  have he3 : (48 :: 32 :: t3).length = 16 := by simp [h3]
  constructor
  · have he2 : (32 :: 32 :: t2).length = 16 := by simp [h2]
    have r0 : ((((16 :: 16 :: t1) ++ ((32 :: 32 :: t2) ++ (48 :: 32 :: t3)))).drop 0).take 16 =
        16 :: 16 :: t1 := by
      rw [List.drop_zero, List.take_left' he1]
    have r1 : ((((16 :: 16 :: t1) ++ ((32 :: 32 :: t2) ++ (48 :: 32 :: t3)))).drop 16).take 16 =
        32 :: 32 :: t2 := by
      rw [List.drop_left' he1, List.take_left' he2]
    have h32 : (((16 :: 16 :: t1) ++ ((32 :: 32 :: t2) ++ (48 :: 32 :: t3)))).drop 32 =
        48 :: 32 :: t3 := by
      have hd := List.drop_drop 16 16
        ((16 :: 16 :: t1) ++ ((32 :: 32 :: t2) ++ (48 :: 32 :: t3)))
      rw [List.drop_left' he1, List.drop_left' he2] at hd
      exact hd.symm
    have r2 : ((((16 :: 16 :: t1) ++ ((32 :: 32 :: t2) ++ (48 :: 32 :: t3)))).drop 32).take 16 =
        48 :: 32 :: t3 := by
      rw [h32, ← he3, List.take_length]
    rw [show (3 : Nat) = 2 + 1 from rfl,
      Ico.icoLoop_step_nil 2 _ 0 (16 :: 16 :: t1) r0,
      show (0 : Nat) + (16 :: 16 :: t1).length = 16 from by simp [he1],
      show (2 : Nat) = 1 + 1 from rfl,
      Ico.icoLoop_step_take 1 _ 16 16 16 t1 32 32 t2 r1 (by norm_num) (by norm_num),
      show (16 : Nat) + (32 :: 32 :: t2).length = 32 from by simp [he2],
      show (1 : Nat) = 0 + 1 from rfl,
      Ico.icoLoop_step_keep 0 _ 32 32 32 t2 48 32 t3 r2 (Or.inr (by norm_num)),
      show (32 : Nat) + (48 :: 32 :: t3).length = 48 from by simp [he3]]
    rfl
  · have he2 : (32 :: 24 :: t2).length = 16 := by simp [h2]
    have r0 : ((((16 :: 16 :: t1) ++ ((32 :: 24 :: t2) ++ (48 :: 32 :: t3)))).drop 0).take 16 =
        16 :: 16 :: t1 := by
      rw [List.drop_zero, List.take_left' he1]
    have r1 : ((((16 :: 16 :: t1) ++ ((32 :: 24 :: t2) ++ (48 :: 32 :: t3)))).drop 16).take 16 =
        32 :: 24 :: t2 := by
      rw [List.drop_left' he1, List.take_left' he2]
    have h32 : (((16 :: 16 :: t1) ++ ((32 :: 24 :: t2) ++ (48 :: 32 :: t3)))).drop 32 =
        48 :: 32 :: t3 := by
      have hd := List.drop_drop 16 16
        ((16 :: 16 :: t1) ++ ((32 :: 24 :: t2) ++ (48 :: 32 :: t3)))
      rw [List.drop_left' he1, List.drop_left' he2] at hd
      exact hd.symm
    have r2 : ((((16 :: 16 :: t1) ++ ((32 :: 24 :: t2) ++ (48 :: 32 :: t3)))).drop 32).take 16 =
        48 :: 32 :: t3 := by
      rw [h32, ← he3, List.take_length]
    rw [show (3 : Nat) = 2 + 1 from rfl,
      Ico.icoLoop_step_nil 2 _ 0 (16 :: 16 :: t1) r0,
      show (0 : Nat) + (16 :: 16 :: t1).length = 16 from by simp [he1],
      show (2 : Nat) = 1 + 1 from rfl,
      Ico.icoLoop_step_take 1 _ 16 16 16 t1 32 24 t2 r1 (by norm_num) (by norm_num),
      show (16 : Nat) + (32 :: 24 :: t2).length = 32 from by simp [he2],
      show (1 : Nat) = 0 + 1 from rfl,
      Ico.icoLoop_step_take 0 _ 32 32 24 t2 48 32 t3 r2 (by norm_num) (by norm_num),
      show (32 : Nat) + (48 :: 32 :: t3).length = 48 from by simp [he3]]
    rfl

/-- Witness for C4 at concrete entries whose trailing 14 bytes are
zeros. -/
theorem C4_selection_witness :
    (Ico.icoLoop 3
        ⟨(16 :: 16 :: List.replicate 14 0) ++
          ((32 :: 32 :: List.replicate 14 0) ++ (48 :: 32 :: List.replicate 14 0)), 0⟩ [] =
      .ok (32 :: 32 :: List.replicate 14 0,
        ⟨(16 :: 16 :: List.replicate 14 0) ++
          ((32 :: 32 :: List.replicate 14 0) ++ (48 :: 32 :: List.replicate 14 0)), 48⟩)) ∧
    (Ico.icoLoop 3
        ⟨(16 :: 16 :: List.replicate 14 0) ++
          ((32 :: 24 :: List.replicate 14 0) ++ (48 :: 32 :: List.replicate 14 0)), 0⟩ [] =
      .ok (48 :: 32 :: List.replicate 14 0,
        ⟨(16 :: 16 :: List.replicate 14 0) ++
          ((32 :: 24 :: List.replicate 14 0) ++ (48 :: 32 :: List.replicate 14 0)), 48⟩)) :=
  ⟨(C4_selection (List.replicate 14 0) (List.replicate 14 0) (List.replicate 14 0)
      (by simp) (by simp) (by simp)).1,
   (C4_selection (List.replicate 14 0) (List.replicate 14 0) (List.replicate 14 0)
      (by simp) (by simp) (by simp)).2⟩

/-- One step of the 8BIM walk when the block at `offset` carries a
resource id other than 0x0404: the walk skips to the next (even-padded)
offset past the block's payload. -/
theorem Iptc.psWalk_skip (fuel : Nat) (app : List Nat) (offset o3 size next : Nat)
    (h8 : (app.drop offset).take 4 = Iptc.marker8BIM)
    (hcode : Iptc.i16BE app (offset + 4) ≠ 0x0404)
    (ho3 : Iptc.padEven (offset + 4 + 2 + 1 + Iptc.byteAt app (offset + 4 + 2)) = o3)
    (hsize : Iptc.i32BE app o3 = size)
    (hnext : Iptc.padEven (o3 + 4 + size) = next) :
    Iptc.psWalk (fuel + 1) app offset = Iptc.psWalk fuel app next := by
  simp only [Iptc.psWalk]
  rw [if_pos h8, ho3, hsize, if_neg hcode, hnext]

/-- One step of the 8BIM walk when the block at `offset` carries
resource id 0x0404: the walk returns the block's payload. -/
theorem Iptc.psWalk_found (fuel : Nat) (app : List Nat) (offset o3 size : Nat)
    (h8 : (app.drop offset).take 4 = Iptc.marker8BIM)
    (hcode : Iptc.i16BE app (offset + 4) = 0x0404)
    (ho3 : Iptc.padEven (offset + 4 + 2 + 1 + Iptc.byteAt app (offset + 4 + 2)) = o3)
    (hsize : Iptc.i32BE app o3 = size) :
    Iptc.psWalk (fuel + 1) app offset = some ((app.drop (o3 + 4)).take size) := by
  simp only [Iptc.psWalk]
  rw [if_pos h8, ho3, hsize, hcode, if_pos rfl]

/-- C7: given an APP13 segment starting with the Photoshop signature and
holding two 8BIM resource blocks — id 0x0402 with a 1-byte (odd-length)
name and a 3-byte payload (odd, so the next block starts after a pad
byte), then id 0x0404 with a 1-byte name and a 5-byte payload — the
extractor skips the first block and returns exactly the 0x0404 payload,
for arbitrary payload contents. -/
theorem C7_jpeg_walk : ∀ p1 p2 : List Nat, p1.length = 3 → p2.length = 5 →
    Iptc.getiptcinfoJpeg
      (Iptc.photoshopSig ++
        ([56, 66, 73, 77, 4, 2, 1, 65, 0, 0, 0, 3] ++
          (p1 ++ ([0] ++ ([56, 66, 73, 77, 4, 4, 1, 66, 0, 0, 0, 5] ++ p2))))) =
      some p2 := by
  intro p1 p2 h1 h2
  set B := [56, 66, 73, 77, 4, 2, 1, 65, 0, 0, 0, 3] ++
    (p1 ++ ([0] ++ ([56, 66, 73, 77, 4, 4, 1, 66, 0, 0, 0, 5] ++ p2))) with hB
  have hsig14 : Iptc.photoshopSig.length = 14 := rfl
  have hlen48 : (Iptc.photoshopSig ++ B).length + 1 = 48 := by
    simp [hB, Iptc.photoshopSig, h1, h2]
  have h8a : (B.drop 0).take 4 = Iptc.marker8BIM := by
    rw [List.drop_zero, hB, List.take_append_of_le_length (by norm_num)]
    rfl
  have hd4 : B.drop 4 =
      [4, 2, 1, 65, 0, 0, 0, 3] ++
        (p1 ++ ([0] ++ ([56, 66, 73, 77, 4, 4, 1, 66, 0, 0, 0, 5] ++ p2))) := by
    rw [hB, List.drop_append_of_le_length (by norm_num)]
    rfl
  have hc1026 : Iptc.i16BE B 4 = 1026 := by
    unfold Iptc.i16BE
    rw [hd4]
    rfl
  have hcodeA : Iptc.i16BE B 4 ≠ 0x0404 := by
    rw [hc1026]
    decide
  have hd6 : B.drop 6 =
      [1, 65, 0, 0, 0, 3] ++
        (p1 ++ ([0] ++ ([56, 66, 73, 77, 4, 4, 1, 66, 0, 0, 0, 5] ++ p2))) := by
    rw [hB, List.drop_append_of_le_length (by norm_num)]
    rfl
  have hb6 : Iptc.byteAt B 6 = 1 := by
    unfold Iptc.byteAt
    rw [hd6]
    rfl
  have ho3a : Iptc.padEven (0 + 4 + 2 + 1 + Iptc.byteAt B (0 + 4 + 2)) = 8 := by
    show Iptc.padEven (0 + 4 + 2 + 1 + Iptc.byteAt B 6) = 8
    rw [hb6]
    rfl
  have hd8 : B.drop 8 =
      [0, 0, 0, 3] ++
        (p1 ++ ([0] ++ ([56, 66, 73, 77, 4, 4, 1, 66, 0, 0, 0, 5] ++ p2))) := by
    rw [hB, List.drop_append_of_le_length (by norm_num)]
    rfl
  have hszA : Iptc.i32BE B 8 = 3 := by
    unfold Iptc.i32BE
    rw [hd8]
    rfl
  have hB16 : B.drop 16 = [56, 66, 73, 77, 4, 4, 1, 66, 0, 0, 0, 5] ++ p2 := by
    rw [hB,
      show [56, 66, 73, 77, 4, 2, 1, 65, 0, 0, 0, 3] ++
          (p1 ++ ([0] ++ ([56, 66, 73, 77, 4, 4, 1, 66, 0, 0, 0, 5] ++ p2))) =
        ([56, 66, 73, 77, 4, 2, 1, 65, 0, 0, 0, 3] ++ (p1 ++ [0])) ++
          ([56, 66, 73, 77, 4, 4, 1, 66, 0, 0, 0, 5] ++ p2) from by
        simp [List.append_assoc]]
    exact List.drop_left' (by simp [h1])
  have h8b : (B.drop 16).take 4 = Iptc.marker8BIM := by
    rw [hB16, List.take_append_of_le_length (by norm_num)]
    rfl
  have hd20 : B.drop 20 = [4, 4, 1, 66, 0, 0, 0, 5] ++ p2 := by
    have hdd := List.drop_drop 4 16 B
    rw [hB16, List.drop_append_of_le_length (by norm_num)] at hdd
    exact hdd.symm
  have hcodeB : Iptc.i16BE B 20 = 0x0404 := by
    unfold Iptc.i16BE
    rw [hd20]
    rfl
  have hd22 : B.drop 22 = [1, 66, 0, 0, 0, 5] ++ p2 := by
    have hdd := List.drop_drop 6 16 B
    rw [hB16, List.drop_append_of_le_length (by norm_num)] at hdd
    exact hdd.symm
  have hb22 : Iptc.byteAt B 22 = 1 := by
    unfold Iptc.byteAt
    rw [hd22]
    rfl
  have ho3b : Iptc.padEven (16 + 4 + 2 + 1 + Iptc.byteAt B (16 + 4 + 2)) = 24 := by
    show Iptc.padEven (16 + 4 + 2 + 1 + Iptc.byteAt B 22) = 24
    rw [hb22]
    rfl
  have hd24 : B.drop 24 = [0, 0, 0, 5] ++ p2 := by
    have hdd := List.drop_drop 8 16 B
    rw [hB16, List.drop_append_of_le_length (by norm_num)] at hdd
    exact hdd.symm
  have hszB : Iptc.i32BE B 24 = 5 := by
    unfold Iptc.i32BE
    rw [hd24]
    rfl
  have hd28 : B.drop 28 = p2 := by
    have hdd := List.drop_drop 12 16 B
    rw [hB16, List.drop_append_of_le_length (by norm_num)] at hdd
    exact hdd.symm
  have htake : p2.take 5 = p2 := by
    rw [← h2, List.take_length]
  unfold Iptc.getiptcinfoJpeg
  rw [List.take_left' hsig14, if_pos rfl, List.drop_left' hsig14, hlen48,
    show (48 : Nat) = 47 + 1 from rfl,
    Iptc.psWalk_skip 47 B 0 8 3 16 h8a hcodeA ho3a hszA rfl,
    show (47 : Nat) = 46 + 1 from rfl,
    Iptc.psWalk_found 46 B 16 24 5 h8b hcodeB ho3b hszB,
    show (24 + 4 : Nat) = 28 from rfl, hd28, htake]

/-- Witness for C7 at concrete payloads `[9,9,9]` and `[1,2,3,4,5]`. -/
theorem C7_jpeg_walk_witness :
    Iptc.getiptcinfoJpeg
      (Iptc.photoshopSig ++
        ([56, 66, 73, 77, 4, 2, 1, 65, 0, 0, 0, 3] ++
          ([9, 9, 9] ++ ([0] ++
            ([56, 66, 73, 77, 4, 4, 1, 66, 0, 0, 0, 5] ++ [1, 2, 3, 4, 5]))))) =
      some [1, 2, 3, 4, 5] :=
  C7_jpeg_walk [9, 9, 9] [1, 2, 3, 4, 5] rfl rfl

/-- C8: whenever the icon open succeeds, the published size is the
bitmap decoder's reported width paired with its reported raw height
halved, and the tile's decode region is rewritten to
(0, 0, width, rawHeight/2), keeping the decoder name, data offset and
trailing arguments. -/
theorem C8_size_halving : ∀ {α : Type} (data : List Nat)
    (bitmap : Nat → (Nat × Nat) × (String × (Nat × Nat × Nat × Nat) × Nat × α))
    (w rh : Nat) (t : String × (Nat × Nat × Nat × Nat) × Nat × α)
    (r : Ico.IcoResult α),
    Ico.IcoImageFile._open data bitmap = .ok r →
    bitmap r.offset = ((w, rh), t) →
    r.size = (w, rh / 2) ∧
    r.tile = (t.1, (0, 0, w, rh / 2), t.2.2.1, t.2.2.2) := by
  intro α data bitmap w rh t r hopen hb
  unfold Ico.IcoImageFile._open at hopen
  split at hopen
  split at hopen
  · simp at hopen
  split at hopen
  · simp at hopen
  split at hopen
  · simp at hopen
  split at hopen
  · simp at hopen
  rw [Except.ok.injEq] at hopen
  subst hopen
  simp only [Ico.IcoResult.offset] at hb
  simp [hb]

/-- Witness for C8: a one-entry container whose entry points at offset
22, with a bitmap oracle reporting intrinsic size (64, 128): the
published size is (64, 64) and the tile region is rewritten to
(0, 0, 64, 64). -/
theorem C8_size_halving_witness :
    Ico.IcoResult.size
        (⟨[16, 16, 0, 0, 1, 0, 8, 0, 0, 1, 0, 0, 22, 0, 0, 0], 22, (64, 64),
          ("bmp", (0, 0, 64, 64), 22, "raw")⟩ : Ico.IcoResult String) = (64, 64) ∧
    Ico.IcoResult.tile
        (⟨[16, 16, 0, 0, 1, 0, 8, 0, 0, 1, 0, 0, 22, 0, 0, 0], 22, (64, 64),
          ("bmp", (0, 0, 64, 64), 22, "raw")⟩ : Ico.IcoResult String) =
      ("bmp", (0, 0, 64, 64), 22, "raw") :=
  C8_size_halving
    ([0, 0, 1, 0, 1, 0] ++ [16, 16, 0, 0, 1, 0, 8, 0, 0, 1, 0, 0, 22, 0, 0, 0])
    Ico.exBitmap 64 128 ("bmp", (0, 0, 64, 128), 22, "raw")
    ⟨[16, 16, 0, 0, 1, 0, 8, 0, 0, 1, 0, 0, 22, 0, 0, 0], 22, (64, 64),
      ("bmp", (0, 0, 64, 64), 22, "raw")⟩ (by rfl) (by rfl)

namespace Iptc

/-- Lookup distributes over dictionary append: the left mapping wins. -/
theorem lookupTag_append (T : Tag) (l1 l2 : Info) :
    lookupTag T (l1 ++ l2) =
      match lookupTag T l1 with
      | some v => some v
      | Option.none => lookupTag T l2 := by
  induction l1 with
  | nil => simp [lookupTag]
  | cons kv rest ih =>
    obtain ⟨k, v⟩ := kv
    by_cases hk : k = T <;> simp [lookupTag, hk, ih]

/-- In-place update of a present key is seen by lookup at that key. -/
theorem lookupTag_updateTag_self (t : Tag) (v : IptcVal) :
    ∀ info : Info, (lookupTag t info).isSome →
      lookupTag t (updateTag t v info) = some v := by
  intro info
  induction info with
  | nil => simp [lookupTag]
  | cons kv rest ih =>
    obtain ⟨k, w⟩ := kv
    intro hsome
    by_cases hk : k = t
    · subst hk
      simp [lookupTag, updateTag]
    · simp only [lookupTag, updateTag, hk, if_false, if_neg hk] at hsome ⊢
      exact ih hsome

/-- In-place update of one key leaves lookups of other keys unchanged. -/
theorem lookupTag_updateTag_ne (t T : Tag) (v : IptcVal) (h : T ≠ t) :
    ∀ info : Info, lookupTag T (updateTag t v info) = lookupTag T info := by
  intro info
  induction info with
  | nil => simp [updateTag]
  | cons kv rest ih =>
    obtain ⟨k, w⟩ := kv
    by_cases hk : k = t
    · subst hk
      have : ¬ k = T := fun hh => h hh.symm
      simp [lookupTag, updateTag, this]
    · simp [lookupTag, updateTag, hk, ih]

/-- The effect of one accumulation step on lookups: the written tag's
value follows the unseen/scalar/list promotion rule; other tags are
untouched. -/
theorem lookupTag_addTag (info : Info) (t : Tag) (d : TagData) (T : Tag) :
    lookupTag T (addTag info t d) =
      if t = T then
        match lookupTag T info with
        | Option.none => some (.scalar d)
        | some (.scalar a) => some (.multi [a, d])
        | some (.multi l) => some (.multi (l ++ [d]))
      else lookupTag T info := by
  unfold addTag
  by_cases ht : t = T
  · subst ht
    cases hl : lookupTag t info with
    | none => simp [lookupTag_append, hl, lookupTag]
    | some v =>
      cases v with
      | scalar a =>
        rw [if_pos rfl]
        exact lookupTag_updateTag_self t _ info (by simp [hl])
      | multi l =>
        rw [if_pos rfl]
        exact lookupTag_updateTag_self t _ info (by simp [hl])
  · have hTt : T ≠ t := fun hh => ht hh.symm
    cases hl : lookupTag t info with
    | none =>
      rw [if_neg ht, lookupTag_append]
      cases hT : lookupTag T info
      · simp [lookupTag, ht]
      · simp
    | some v =>
      cases v with
      | scalar a => rw [if_neg ht]; exact lookupTag_updateTag_ne t T _ hTt info
      | multi l => rw [if_neg ht]; exact lookupTag_updateTag_ne t T _ hTt info

/-- Canonical-form invariant of the accumulated mapping: every stored
value is the `accumSpec` shape of the payload list it represents (in
particular, every promoted list has at least two elements). -/
theorem goodInfo_addTag (info : Info)
    (h : ∀ S, lookupTag S info = accumSpec (seenList (lookupTag S info)))
    (t : Tag) (d : TagData) :
    ∀ S, lookupTag S (addTag info t d) =
      accumSpec (seenList (lookupTag S (addTag info t d))) := by
  intro S
  rw [lookupTag_addTag]
  by_cases hts : t = S
  · subst hts
    cases hl : lookupTag t info with
    | none => simp [hl, seenList, accumSpec]
    | some v =>
      cases v with
      | scalar a => simp [hl, seenList, accumSpec]
      | multi l =>
        have hcan := h t
        rw [hl] at hcan
        cases l with
        | nil => simp [seenList, accumSpec] at hcan
        | cons x xs =>
          cases xs with
          | nil => simp [seenList, accumSpec] at hcan
          | cons y ys => simp [hl, seenList, accumSpec]
  · simp only [if_neg hts]
    exact h S

/-- The accumulated value of a tag after folding a record sequence from
any canonically-shaped starting mapping: the `accumSpec` shape of the
already-seen payloads followed by the tag's occurrences in the
sequence. -/
theorem lookupTag_processFrom (rs : List (Tag × TagData)) :
    ∀ info : Info,
      (∀ S, lookupTag S info = accumSpec (seenList (lookupTag S info))) →
      ∀ T, lookupTag T (processFrom info rs) =
        accumSpec (seenList (lookupTag T info) ++ occurrences T rs) := by
  induction rs with
  | nil =>
    intro info h T
    simp only [processFrom, List.foldl_nil, occurrences, List.filter_nil,
      List.map_nil, List.append_nil]
    exact h T
  | cons r rest ih =>
    intro info h T
    obtain ⟨t, d⟩ := r
    have hstep : processFrom info ((t, d) :: rest) = processFrom (addTag info t d) rest := by
      simp [processFrom]
    rw [hstep, ih (addTag info t d) (goodInfo_addTag info h t d) T]
    congr 1
    rw [lookupTag_addTag]
    by_cases hts : t = T
    · subst hts
      have hocc : occurrences t ((t, d) :: rest) = d :: occurrences t rest := by
        simp [occurrences]
      rw [hocc, if_pos rfl]
      cases hl : lookupTag t info with
      | none => simp [seenList]
      | some v =>
        cases v with
        | scalar a => simp [seenList]
        | multi l => simp [seenList]
    · have hocc : occurrences T ((t, d) :: rest) = occurrences T rest := by
        simp [occurrences, hts]
      rw [hocc, if_neg hts]

end Iptc

/-- C5: multi-valued accumulation.  For every parsed record sequence and
every tag, the accumulated mapping holds exactly the `accumSpec` shape of
that tag's payload occurrences in arrival order: absent when the tag
never occurs, the scalar payload when it occurs once, and the ordered
list of payloads when it occurs two or more times; in particular a tag
occurring three times with payloads A, B, C maps to the list [A, B, C]
and a tag occurring once maps to the scalar A. -/
theorem C5_accumulation :
    (∀ (rs : List (Iptc.Tag × Iptc.TagData)) (T : Iptc.Tag),
      Iptc.lookupTag T (Iptc.processRecords rs) =
        Iptc.accumSpec (Iptc.occurrences T rs)) ∧
    (∀ (T : Iptc.Tag) (A B C : Iptc.TagData),
      Iptc.lookupTag T (Iptc.processRecords [(T, A), (T, B), (T, C)]) =
        some (.multi [A, B, C])) ∧
    (∀ (T : Iptc.Tag) (A : Iptc.TagData),
      Iptc.lookupTag T (Iptc.processRecords [(T, A)]) = some (.scalar A)) := by
  have hmain : ∀ (rs : List (Iptc.Tag × Iptc.TagData)) (T : Iptc.Tag),
      Iptc.lookupTag T (Iptc.processRecords rs) =
        Iptc.accumSpec (Iptc.occurrences T rs) := by
    intro rs T
    have h := Iptc.lookupTag_processFrom rs []
      (by intro S; simp [Iptc.lookupTag, Iptc.seenList, Iptc.accumSpec]) T
    simpa [Iptc.processRecords, Iptc.lookupTag, Iptc.seenList] using h
  refine ⟨hmain, ?_, ?_⟩
  · intro T A B C
    rw [hmain]
    simp [Iptc.occurrences, Iptc.accumSpec]
  · intro T A
    rw [hmain]
    simp [Iptc.occurrences, Iptc.accumSpec]
